import Mathlib

/-!
Shallow embedding of the resilient HTTP client core of `go-hms-push`.

The repository contains two parallel implementations of the client:

* variant A: `src/httpclient/httpclient.go` (package `httpclient`), whose
  `NewHTTPClient` adopts a supplied retry configuration verbatim and applies a
  proxy CA file only when the proxy scheme is `https`;
* variant B: the `httpclient` package embedded in `src/push/config/config.go`,
  whose `NewHTTPClient` rejects `MaxRetryTimes` outside `1..5` and applies a
  configured trust-anchor file unconditionally.

Both variants share the same request builder (`buildHTTPRequest`), per-attempt
exchange (`doHttpRequest`), retry loop (`DoHttpRequest`) and inter-attempt wait
(`pendingForRetry`); those are embedded once.  External effects (the transport
exchange, the filesystem, certificate parsing, the cancellation signal) are
passed in as explicit oracle parameters.
-/

set_option maxHeartbeats 1000000

namespace GoHmsPush

/-- Go byte slices (`[]byte`), abstracted to lists of bytes. -/
abbrev Bytes := List Nat

/-- Model of Go `http.Header`: an association list from header keys to values.
`net/http`'s `Header.Set` replaces any existing value stored for the key. -/
abbrev Header := List (String × String)

/-- `http.Header.Set`: store the single given value for the key, replacing any
previous values for that key. -/
def headerSet (h : Header) (key value : String) : Header :=
  (key, value) :: h.filter (fun p => p.1 != key)

/-- `http.Header.Get`: the value stored for the key, if any. -/
def headerGet (h : Header) (key : String) : Option String :=
  (h.find? (fun p => p.1 == key)).map (fun p => p.2)

/-- Model of `net/url.URL`: the scheme (inspected by variant A's proxy-CA
gating) plus the rest of the URL, kept opaque. -/
structure URL where
  Scheme : String
  Rest : String
  deriving DecidableEq

/-- Model of Go `http.Request`: the fields this repository touches. -/
structure HttpRequest where
  Method : String
  URLStr : String
  Body : Option Bytes
  Header : Header
  deriving DecidableEq

/-- `type HTTPOption func(r *http.Request)`: a request mutator, modelled as a
request transformer. -/
def HTTPOption := HttpRequest → HttpRequest

/-- `SetHeader(key, value)` returns an option that sets exactly one header key
to one value (`r.Header.Set(key, value)`). -/
def SetHeader (key value : String) : HTTPOption :=
  fun r => { r with Header := headerSet r.Header key value }

/-- `PushRequest` from both httpclient variants.  `Body` is `Option` to model
the `nil` / non-`nil` distinction of the Go slice. -/
structure PushRequest where
  Method : String
  URL : String
  Body : Option Bytes
  Header : List HTTPOption

/-- `PushResponse` from both httpclient variants. -/
structure PushResponse where
  Status : Nat
  Header : Header
  Body : Bytes
  deriving DecidableEq

/-- `HTTPRetryConfig`.  `MaxRetryTimes` is a Go `int` and `RetryInterval` a
`time.Duration` (an `int64` count of nanoseconds); both are modelled as `Int`. -/
structure HTTPRetryConfig where
  MaxRetryTimes : Int
  RetryInterval : Int
  deriving DecidableEq

/-- Variant A's `HTTPProxyConfig` (`src/httpclient/httpclient.go`). -/
structure HTTPProxyConfig where
  ProxyUrl : Option URL
  ProxyCACertPath : String
  deriving DecidableEq

/-- Variant A's `HTTPClientConfig` (`src/httpclient/httpclient.go`). -/
structure HTTPClientConfig where
  ProxyConfig : Option HTTPProxyConfig
  RetryConfig : Option HTTPRetryConfig
  deriving DecidableEq

/-- Variant B's `HTTPTransportConfig` (`src/push/config/config.go`). -/
structure HTTPTransportConfig where
  ProxyUrl : Option URL
  TrustedCA : String
  deriving DecidableEq

/-- Variant B's `HTTPClientConfig` (`src/push/config/config.go`). -/
structure HTTPClientConfigB where
  TransportConfig : Option HTTPTransportConfig
  RetryConfig : Option HTTPRetryConfig
  deriving DecidableEq

/-- Model of an `x509.CertPool`: the list of PEM blobs successfully appended. -/
abbrev CertPool := List Bytes

/-- `CertPool.AppendCertsFromPEM`: append the blob when at least one
certificate parses from it (decided by the oracle `ok`), reporting success. -/
def appendCertsFromPEM (ok : Bytes → Bool) (pool : CertPool) (pem : Bytes) :
    CertPool × Bool :=
  if ok pem then (pool ++ [pem], true) else (pool, false)

/-- Ambient system effects used by client construction: `ioutil.ReadFile`,
`x509.SystemCertPool` (`none` models a `nil` pool), and whether
`AppendCertsFromPEM` parses at least one certificate from given bytes. -/
structure SysEnv where
  readFile : String → Except String Bytes
  systemCertPool : Option CertPool
  pemParses : Bytes → Bool

/-- Model of `http.Transport`: the fields set by both `NewHTTPClient`s. -/
structure Transport where
  MaxIdleConns : Nat
  IdleConnTimeout : Int
  DisableCompression : Bool
  RootCAs : Option CertPool
  Proxy : Option URL
  deriving DecidableEq

/-- The transport literal both variants start from: 10 idle connections, 30s
idle timeout (in nanoseconds), compression disabled, default TLS config. -/
def baseTransport : Transport :=
  { MaxIdleConns := 10
    IdleConnTimeout := 30 * 1000000000
    DisableCompression := true
    RootCAs := none
    Proxy := none }

/-- `HTTPClient`: the constructed client, binding the transport and the
(always non-nil) retry configuration. -/
structure HTTPClient where
  Transport : Transport
  RetryConfig : HTTPRetryConfig
  deriving DecidableEq

/-- Construction-time errors of both `NewHTTPClient` variants. -/
inductive ConfigErr where
  /-- an `ioutil.ReadFile` error, propagated verbatim -/
  | fileError (msg : String)
  /-- variant A: "failed to parse proxy server CA certificate" -/
  | parseProxyCA
  /-- variant B: "maximum retry times value cannot be less than 1 and more than 5" -/
  | retryBounds
  /-- variant B: "failed to parse trusted CA certificate" -/
  | parseTrustedCA
  deriving DecidableEq

/-- Model of Go `strings.ToLower`: character-wise lowercasing. -/
def toLowerStr (s : String) : String := ⟨s.data.map Char.toLower⟩

/-- Variant A's `NewHTTPClient` (`src/httpclient/httpclient.go`, lines 74-114).
The proxy CA file is read only when a proxy URL is configured, its scheme
lowercases to `"https"` and `ProxyCACertPath` is non-empty; a supplied
`RetryConfig` is adopted verbatim with no bounds check, and an absent one is
replaced by `{MaxRetryTimes: 1, RetryInterval: 0}`. -/
def NewHTTPClientA (env : SysEnv) (config : Option HTTPClientConfig) :
    Except ConfigErr HTTPClient :=
  let step :=
    match config with
    | some cfg =>
      match cfg.ProxyConfig with
      | some pc =>
        match pc.ProxyUrl with
        | some proxyURL =>
          let caStep : Except ConfigErr Transport :=
            if toLowerStr proxyURL.Scheme = "https" ∧ 0 < pc.ProxyCACertPath.length then
              match env.readFile pc.ProxyCACertPath with
              | .error e => .error (.fileError e)
              | .ok pemBytes =>
                let rootCAs : CertPool :=
                  match env.systemCertPool with
                  | some p => p
                  | none => []
                match appendCertsFromPEM env.pemParses rootCAs pemBytes with
                | (pool, okFlag) =>
                  if okFlag then .ok { baseTransport with RootCAs := some pool }
                  else .error .parseProxyCA
            else .ok baseTransport
          caStep.map (fun t : Transport => { t with Proxy := some proxyURL })
        | none => .ok baseTransport
      | none => .ok baseTransport
    | none => .ok baseTransport
  match step with
  | .error e => .error e
  | .ok tr =>
    let rc : HTTPRetryConfig :=
      match config with
      | some cfg =>
        match cfg.RetryConfig with
        | some r => r
        | none => ⟨1, 0⟩
      | none => ⟨1, 0⟩
    .ok ⟨tr, rc⟩

/-- Variant B's `NewHTTPClient` (`src/push/config/config.go`, lines 160-212).
`MaxRetryTimes` outside `1..5` is rejected; the trust-anchor file is read
whenever `TrustedCA` is non-empty, independent of the proxy scheme. -/
def NewHTTPClientB (env : SysEnv) (config : Option HTTPClientConfigB) :
    Except ConfigErr HTTPClient :=
  match config with
  | none => .ok ⟨baseTransport, ⟨1, 0⟩⟩
  | some cfg =>
    let rcStep : Except ConfigErr (Option HTTPRetryConfig) :=
      match cfg.RetryConfig with
      | some rc =>
        if rc.MaxRetryTimes < 1 ∨ rc.MaxRetryTimes > 5 then .error .retryBounds
        else .ok (some rc)
      | none => .ok none
    match rcStep with
    | .error e => .error e
    | .ok rcOpt =>
      let trStep : Except ConfigErr Transport :=
        match cfg.TransportConfig with
        | some tc =>
          let tr1 : Transport :=
            match tc.ProxyUrl with
            | some pu => { baseTransport with Proxy := some pu }
            | none => baseTransport
          if tc.TrustedCA ≠ "" then
            match env.readFile tc.TrustedCA with
            | .error e => .error (.fileError e)
            | .ok pemBytes =>
              let rootCAs : CertPool :=
                match env.systemCertPool with
                | some p => p
                | none => []
              match appendCertsFromPEM env.pemParses rootCAs pemBytes with
              | (pool, okFlag) =>
                if okFlag then .ok { tr1 with RootCAs := some pool }
                else .error .parseTrustedCA
          else .ok tr1
        | none => .ok baseTransport
      match trStep with
      | .error e => .error e
      | .ok tr2 =>
        let rc : HTTPRetryConfig :=
          match rcOpt with
          | some r => r
          | none => ⟨1, 0⟩
        .ok ⟨tr2, rc⟩

/-- Model of `http.NewRequest`: the oracle `valid` decides whether the method
and URL are well-formed for the transport; on success the request carries the
given body and an empty header map. -/
def NewRequest (valid : String → String → Bool) (method url : String)
    (body : Option Bytes) : Option HttpRequest :=
  if valid method url then some ⟨method, url, body, []⟩ else none

/-- `(r *PushRequest).buildHTTPRequest()` (identical in both variants): build a
method+URL request with the body as entity, then apply the header options in
sequence order. -/
def buildHTTPRequest (valid : String → String → Bool) (r : PushRequest) :
    Option HttpRequest :=
  match NewRequest valid r.Method r.URL r.Body with
  | none => none
  | some req => some (r.Header.foldl (fun q opt => opt q) req)

/-- Outcome of one transport exchange of an attempt: either `Client.Do` fails,
or it returns a response envelope whose body read (`ioutil.ReadAll`) then
either fails or yields the body bytes. -/
inductive DoOutcome where
  | transportFail (msg : String)
  | gotResponse (status : Nat) (header : Header) (bodyRead : Except String Bytes)

/-- The error classes a single attempt can produce. -/
inductive HttpErr where
  /-- `http.NewRequest` rejected the method/URL -/
  | buildErr
  /-- `Client.Do` failed at the transport level -/
  | transportErr (msg : String)
  /-- `ioutil.ReadAll` failed draining the response body -/
  | readErr (msg : String)
  deriving DecidableEq

/-- `(c *HTTPClient).doHttpRequest(req)`: build the wire request, execute it,
read the full body, and package the status/header/body triple.  The exchange
itself is supplied as the `outcome` oracle. -/
def doHttpRequest (valid : String → String → Bool) (outcome : DoOutcome)
    (req : PushRequest) : Except HttpErr PushResponse :=
  match buildHTTPRequest valid req with
  | none => .error .buildErr
  | some _ =>
    match outcome with
    | .transportFail msg => .error (.transportErr msg)
    | .gotResponse status header bodyRead =>
      match bodyRead with
      | .error msg => .error (.readErr msg)
      | .ok body => .ok ⟨status, header, body⟩

/-- `(c *HTTPClient).pendingForRetry(ctx)`: when `RetryInterval > 0`, race the
timer against `ctx.Done()`; `ctxDoneFirst` records which side of the `select`
fires first (`true` = cancellation wins, return `false`; `false` = timer fires,
return `true`).  When the interval is not positive, return `false` without
entering the `select` at all. -/
def pendingForRetry (c : HTTPRetryConfig) (ctxDoneFirst : Bool) : Bool :=
  if 0 < c.RetryInterval then
    if ctxDoneFirst then false else true
  else false

/-- The observable outcome of one `DoHttpRequest` call: the final `result` and
`err` variables, plus the number of attempts (calls of `doHttpRequest`) made. -/
structure RunResult where
  result : Option PushResponse
  err : Option HttpErr
  attempts : Nat
  deriving DecidableEq

/-- The retry loop body of `DoHttpRequest`, identical in both variants:
`i` counts the attempts already made, `rem` the remaining loop iterations
(`MaxRetryTimes - retryTimes`), and `res`/`er` the current values of the
`result`/`err` variables. -/
def DoHttpRequestAux (c : HTTPRetryConfig) (valid : String → String → Bool)
    (outcome : Nat → DoOutcome) (ctxDoneFirst : Nat → Bool) (req : PushRequest) :
    Nat → Nat → Option PushResponse → Option HttpErr → RunResult
  | i, 0, res, er => ⟨res, er, i⟩
  | i, rem + 1, _, _ =>
    match doHttpRequest valid (outcome i) req with
    | .ok r => ⟨some r, none, i + 1⟩
    | .error e =>
      if pendingForRetry c (ctxDoneFirst i) then
        DoHttpRequestAux c valid outcome ctxDoneFirst req (i + 1) rem none (some e)
      else ⟨none, some e, i + 1⟩

/-- `(c *HTTPClient).DoHttpRequest(ctx, req)`: run up to `MaxRetryTimes`
attempts, stopping on the first success or the first refused wait, and return
the last attempt's `result`/`err` pair (both `nil` when the loop body never
runs).  The attempt outcomes and the `select` races are supplied as oracles
indexed by attempt number. -/
def DoHttpRequest (c : HTTPRetryConfig) (valid : String → String → Bool)
    (outcome : Nat → DoOutcome) (ctxDoneFirst : Nat → Bool) (req : PushRequest) :
    RunResult :=
  DoHttpRequestAux c valid outcome ctxDoneFirst req 0 c.MaxRetryTimes.toNat none none

/-- Instrumented retry loop: additionally records, per executed attempt, the
`PushRequest` value handed to `doHttpRequest` (and hence to
`buildHTTPRequest`). -/
def DoHttpRequestTraceAux (c : HTTPRetryConfig) (valid : String → String → Bool)
    (outcome : Nat → DoOutcome) (ctxDoneFirst : Nat → Bool) (req : PushRequest) :
    Nat → Nat → Option PushResponse → Option HttpErr → RunResult × List PushRequest
  | i, 0, res, er => (⟨res, er, i⟩, [])
  | i, rem + 1, _, _ =>
    match doHttpRequest valid (outcome i) req with
    | .ok r => (⟨some r, none, i + 1⟩, [req])
    | .error e =>
      if pendingForRetry c (ctxDoneFirst i) then
        let rest := DoHttpRequestTraceAux c valid outcome ctxDoneFirst req
          (i + 1) rem none (some e)
        (rest.1, req :: rest.2)
      else (⟨none, some e, i + 1⟩, [req])

/-- Instrumented `DoHttpRequest`: the run outcome plus the list of request
values used to build the wire request, one per attempt. -/
def DoHttpRequestTrace (c : HTTPRetryConfig) (valid : String → String → Bool)
    (outcome : Nat → DoOutcome) (ctxDoneFirst : Nat → Bool) (req : PushRequest) :
    RunResult × List PushRequest :=
  DoHttpRequestTraceAux c valid outcome ctxDoneFirst req 0 c.MaxRetryTimes.toNat none none

/-- Replace the status of every response envelope in an outcome by `f`. -/
def withStatus (f : Nat → Nat) : DoOutcome → DoOutcome
  | .transportFail msg => .transportFail msg
  | .gotResponse status header bodyRead => .gotResponse (f status) header bodyRead

/-- Map a response's status by `f`. -/
def mapRespStatus (f : Nat → Nat) (r : PushResponse) : PushResponse :=
  { r with Status := f r.Status }

/-- Map a run's result status by `f`, leaving the error and attempt count. -/
def mapRunStatus (f : Nat → Nat) (run : RunResult) : RunResult :=
  { run with result := run.result.map (mapRespStatus f) }

/-! ### Concrete fixtures used for witnesses and counterexamples -/

/-- A method/URL validity oracle accepting everything. -/
def validAll : String → String → Bool := fun _ _ => true

/-- Every attempt fails at the transport level, with the attempt index in the
error message. -/
def outcomeFail : Nat → DoOutcome := fun i => .transportFail (toString i)

/-- Every attempt yields a 500 response whose body reads fine. -/
def outcome500 : Nat → DoOutcome := fun _ => .gotResponse 500 [] (.ok [])

/-- Attempt 0 fails at the transport level; every later attempt succeeds. -/
def outcomeFailThenOk : Nat → DoOutcome := fun i =>
  if i == 0 then .transportFail "boom" else .gotResponse 200 [] (.ok [])

/-- A cancellation signal that is never asserted. -/
def noCancel : Nat → Bool := fun _ => false

/-- A cancellation signal that wins the race at wait index 1. -/
def cancelAt1 : Nat → Bool := fun j => j == 1

/-- A concrete request with no body and no header options. -/
def reqDemo : PushRequest := ⟨"POST", "https://example.invalid/push", none, []⟩

/-- Retry config: two attempts allowed, zero inter-attempt interval. -/
def cfgZero2 : HTTPRetryConfig := ⟨2, 0⟩

/-- Retry config: three attempts allowed, positive inter-attempt interval. -/
def cfgPos3 : HTTPRetryConfig := ⟨3, 5⟩

/-- A system environment whose filesystem rejects every read. -/
def envEmpty : SysEnv := ⟨fun _ => .error "no filesystem", none, fun _ => false⟩

/-- A system environment whose files all read as non-certificate garbage. -/
def envGarbage : SysEnv := ⟨fun _ => .ok [1, 2, 3], none, fun _ => false⟩

/-- An https proxy URL. -/
def urlHttpsProxy : URL := ⟨"https", "proxy.invalid"⟩

/-! ### Helper lemmas -/

/-- Filtering out the entries for key `k` does not change the first match for a
different key `k2`. -/
theorem headerFindFilter (k k2 : String) (hne : k2 ≠ k) (h : Header) :
    (h.filter (fun p => p.1 != k)).find? (fun p => p.1 == k2) =
      h.find? (fun p => p.1 == k2) := by
  induction h with
  | nil => rfl
  | cons p t ih =>
    by_cases hk : p.1 = k
    · have hf : (p.1 != k) = false := by simp [hk]
      have hk2 : (p.1 == k2) = false := by
        apply beq_eq_false_iff_ne.mpr
        intro hh
        exact hne (by rw [← hh, hk])
      simp [List.filter_cons, hf, List.find?_cons, hk2, ih]
    · have hf : (p.1 != k) = true := by simp [hk]
      by_cases hk2 : p.1 = k2
      · have hb : (p.1 == k2) = true := by simp [hk2]
        simp [List.filter_cons, hf, List.find?_cons, hb]
      · have hb : (p.1 == k2) = false := by simp [hk2]
        simp [List.filter_cons, hf, List.find?_cons, hb, ih]

/-- `Header.Set` stores the new value for its key and leaves every other key
unchanged. -/
theorem headerGet_headerSet (h : Header) (k v k2 : String) :
    headerGet (headerSet h k v) k2 = if k2 = k then some v else headerGet h k2 := by
  unfold headerGet headerSet
  by_cases hk : k2 = k
  · have hb : (k == k2) = true := by simp [hk]
    simp [List.find?_cons, hb, hk]
  · have hb : (k == k2) = false := by
      apply beq_eq_false_iff_ne.mpr
      intro hh
      exact hk hh.symm
    simp [List.find?_cons, hb, hk, headerFindFilter k k2 hk h]

/-- When the method/URL pair is accepted, `buildHTTPRequest` succeeds and
returns the base request with the header options folded over it in order. -/
theorem buildHTTPRequest_valid (valid : String → String → Bool) (r : PushRequest)
    (hv : valid r.Method r.URL = true) :
    buildHTTPRequest valid r =
      some (r.Header.foldl (fun q opt => opt q) ⟨r.Method, r.URL, r.Body, []⟩) := by
  unfold buildHTTPRequest NewRequest
  simp [hv]

/-- A received envelope with a successful body read makes the attempt succeed,
whatever the status code. -/
theorem doHttpRequest_gotOk (valid : String → String → Bool) (s : Nat) (hd : Header)
    (b : Bytes) (req : PushRequest) (hv : valid req.Method req.URL = true) :
    doHttpRequest valid (.gotResponse s hd (.ok b)) req = .ok ⟨s, hd, b⟩ := by
  unfold doHttpRequest
  rw [buildHTTPRequest_valid valid req hv]

/-- When every attempt fails, the interval is positive, and cancellation never
wins the race, the loop runs through all remaining iterations and ends with the
last attempt's error. -/
theorem aux_all_fail (c : HTTPRetryConfig) (valid : String → String → Bool)
    (outcome : Nat → DoOutcome) (ctx : Nat → Bool) (req : PushRequest)
    (e : Nat → HttpErr)
    (hInt : 0 < c.RetryInterval)
    (hCtx : ∀ j, ctx j = false)
    (hFail : ∀ j, doHttpRequest valid (outcome j) req = .error (e j)) :
    ∀ rem, 1 ≤ rem → ∀ i res er,
      DoHttpRequestAux c valid outcome ctx req i rem res er =
        ⟨none, some (e (i + rem - 1)), i + rem⟩ := by
  intro rem
  induction rem with
  | zero => intro h i res er; omega
  | succ n ih =>
    intro _ i res er
    have hpend : pendingForRetry c (ctx i) = true := by
      simp [pendingForRetry, hInt, hCtx i]
    simp only [DoHttpRequestAux, hFail i, hpend, if_true]
    cases n with
    | zero => simp [DoHttpRequestAux]
    | succ m =>
      rw [ih (by omega) (i + 1) none (some (e i))]
      have h1 : i + 1 + (m + 1) - 1 = i + (m + 1 + 1) - 1 := by omega
      have h2 : i + 1 + (m + 1) = i + (m + 1 + 1) := by omega
      rw [h1, h2]

/-- When the first `k` attempts fail, the waits are all granted, and attempt
`k` (0-indexed) succeeds with `r`, the loop stops at that success having made
`k + 1` attempts. -/
theorem aux_first_success (c : HTTPRetryConfig) (valid : String → String → Bool)
    (outcome : Nat → DoOutcome) (ctx : Nat → Bool) (req : PushRequest)
    (e : Nat → HttpErr) (r : PushResponse)
    (hInt : 0 < c.RetryInterval) :
    ∀ k i rem res er,
      k + 1 ≤ rem →
      (∀ j, j < k → doHttpRequest valid (outcome (i + j)) req = .error (e (i + j))) →
      (∀ j, j < k → ctx (i + j) = false) →
      doHttpRequest valid (outcome (i + k)) req = .ok r →
      DoHttpRequestAux c valid outcome ctx req i rem res er =
        ⟨some r, none, i + k + 1⟩ := by
  intro k
  induction k with
  | zero =>
    intro i rem res er hrem _ _ hOk
    obtain ⟨m, rfl⟩ : ∃ m, rem = m + 1 := ⟨rem - 1, by omega⟩
    rw [Nat.add_zero] at hOk
    simp [DoHttpRequestAux, hOk]
  | succ n ih =>
    intro i rem res er hrem hFail hCtx hOk
    obtain ⟨m, rfl⟩ : ∃ m, rem = m + 1 := ⟨rem - 1, by omega⟩
    have h0 : doHttpRequest valid (outcome i) req = .error (e i) := by
      have h := hFail 0 (by omega)
      rwa [Nat.add_zero] at h
    have hc0 : ctx i = false := by
      have h := hCtx 0 (by omega)
      rwa [Nat.add_zero] at h
    have hpend : pendingForRetry c (ctx i) = true := by
      simp [pendingForRetry, hInt, hc0]
    simp only [DoHttpRequestAux, h0, hpend, if_true]
    rw [ih (i + 1) m none (some (e i)) (by omega)
      (fun j hj => by
        have h := hFail (j + 1) (by omega)
        rwa [show i + (j + 1) = i + 1 + j by omega] at h)
      (fun j hj => by
        have h := hCtx (j + 1) (by omega)
        rwa [show i + (j + 1) = i + 1 + j by omega] at h)
      (by rwa [show i + 1 + n = i + (n + 1) by omega])]
    have h2 : i + 1 + n + 1 = i + (n + 1) + 1 := by omega
    rw [h2]

/-- When attempts `0..k` fail, the first `k` waits are granted, and the
cancellation signal wins the race at wait `k`, the loop stops right after
attempt `k` with that attempt's error: no further attempt is made. -/
theorem aux_cancelled (c : HTTPRetryConfig) (valid : String → String → Bool)
    (outcome : Nat → DoOutcome) (ctx : Nat → Bool) (req : PushRequest)
    (e : Nat → HttpErr)
    (hInt : 0 < c.RetryInterval) :
    ∀ k i rem res er,
      k + 1 ≤ rem →
      (∀ j, j ≤ k → doHttpRequest valid (outcome (i + j)) req = .error (e (i + j))) →
      (∀ j, j < k → ctx (i + j) = false) →
      ctx (i + k) = true →
      DoHttpRequestAux c valid outcome ctx req i rem res er =
        ⟨none, some (e (i + k)), i + k + 1⟩ := by
  intro k
  induction k with
  | zero =>
    intro i rem res er hrem hFail _ hCancel
    obtain ⟨m, rfl⟩ : ∃ m, rem = m + 1 := ⟨rem - 1, by omega⟩
    have h0 : doHttpRequest valid (outcome i) req = .error (e i) := by
      have h := hFail 0 (by omega)
      rwa [Nat.add_zero] at h
    have hc : ctx i = true := by rwa [Nat.add_zero] at hCancel
    have hpend : pendingForRetry c (ctx i) = false := by
      simp [pendingForRetry, hc]
    simp [DoHttpRequestAux, h0, hpend]
  | succ n ih =>
    intro i rem res er hrem hFail hCtx hCancel
    obtain ⟨m, rfl⟩ : ∃ m, rem = m + 1 := ⟨rem - 1, by omega⟩
    have h0 : doHttpRequest valid (outcome i) req = .error (e i) := by
      have h := hFail 0 (by omega)
      rwa [Nat.add_zero] at h
    have hc0 : ctx i = false := by
      have h := hCtx 0 (by omega)
      rwa [Nat.add_zero] at h
    have hpend : pendingForRetry c (ctx i) = true := by
      simp [pendingForRetry, hInt, hc0]
    simp only [DoHttpRequestAux, h0, hpend, if_true]
    rw [ih (i + 1) m none (some (e i)) (by omega)
      (fun j hj => by
        have h := hFail (j + 1) (by omega)
        rwa [show i + (j + 1) = i + 1 + j by omega] at h)
      (fun j hj => by
        have h := hCtx (j + 1) (by omega)
        rwa [show i + (j + 1) = i + 1 + j by omega] at h)
      (by rwa [show i + (n + 1) = i + 1 + n by omega] at hCancel)]
    have h2 : i + 1 + n + 1 = i + (n + 1) + 1 := by omega
    have h3 : i + 1 + n = i + (n + 1) := by omega
    rw [h2, h3]

/-- The attempt counter never decreases below its starting value. -/
theorem aux_attempts_ge (c : HTTPRetryConfig) (valid : String → String → Bool)
    (outcome : Nat → DoOutcome) (ctx : Nat → Bool) (req : PushRequest) :
    ∀ rem i res er,
      i ≤ (DoHttpRequestAux c valid outcome ctx req i rem res er).attempts := by
  intro rem
  induction rem with
  | zero => intro i res er; simp [DoHttpRequestAux]
  | succ n ih =>
    intro i res er
    simp only [DoHttpRequestAux]
    cases hd : doHttpRequest valid (outcome i) req with
    | ok r => simp
    | error e =>
      by_cases hp : pendingForRetry c (ctx i) = true
      · simp only [hp, if_true]
        calc i ≤ i + 1 := by omega
          _ ≤ _ := ih (i + 1) none (some e)
      · simp [hp]

/-- The instrumented loop computes the same run as the plain loop and logs the
original `PushRequest`, once per executed attempt. -/
theorem traceAux_spec (c : HTTPRetryConfig) (valid : String → String → Bool)
    (outcome : Nat → DoOutcome) (ctx : Nat → Bool) (req : PushRequest) :
    ∀ rem i res er,
      (DoHttpRequestTraceAux c valid outcome ctx req i rem res er).1 =
        DoHttpRequestAux c valid outcome ctx req i rem res er ∧
      (DoHttpRequestTraceAux c valid outcome ctx req i rem res er).2 =
        List.replicate
          ((DoHttpRequestAux c valid outcome ctx req i rem res er).attempts - i)
          req := by
  intro rem
  induction rem with
  | zero =>
    intro i res er
    constructor <;> simp [DoHttpRequestAux, DoHttpRequestTraceAux]
  | succ n ih =>
    intro i res er
    simp only [DoHttpRequestAux, DoHttpRequestTraceAux]
    cases hd : doHttpRequest valid (outcome i) req with
    | ok r => constructor <;> simp
    | error e =>
      by_cases hp : pendingForRetry c (ctx i) = true
      · simp only [hp, if_true]
        obtain ⟨ih1, ih2⟩ := ih (i + 1) none (some e)
        refine ⟨by simpa using ih1, ?_⟩
        have hge : i + 1 ≤
            (DoHttpRequestAux c valid outcome ctx req (i + 1) n none (some e)).attempts :=
          aux_attempts_ge c valid outcome ctx req n (i + 1) none (some e)
        simp only [ih2]
        rw [show (DoHttpRequestAux c valid outcome ctx req (i + 1) n none
              (some e)).attempts - i =
            ((DoHttpRequestAux c valid outcome ctx req (i + 1) n none
              (some e)).attempts - (i + 1)) + 1 by omega]
        rfl
      · simp [hp]

/-- Mapping every envelope's status commutes with a single attempt. -/
theorem doHttpRequest_withStatus (f : Nat → Nat) (valid : String → String → Bool)
    (o : DoOutcome) (req : PushRequest) :
    doHttpRequest valid (withStatus f o) req =
      (doHttpRequest valid o req).map (mapRespStatus f) := by
  cases o with
  | transportFail m =>
    simp only [withStatus, doHttpRequest]
    cases buildHTTPRequest valid req <;> simp [Except.map]
  | gotResponse s h br =>
    simp only [withStatus, doHttpRequest]
    cases buildHTTPRequest valid req with
    | none => simp [Except.map]
    | some w => cases br <;> simp [Except.map, mapRespStatus]

/-- Mapping every envelope's status commutes with the whole loop: attempts and
errors are unchanged, only the delivered result's status is mapped. -/
theorem aux_withStatus (f : Nat → Nat) (c : HTTPRetryConfig)
    (valid : String → String → Bool) (outcome : Nat → DoOutcome) (ctx : Nat → Bool)
    (req : PushRequest) :
    ∀ rem i res er,
      DoHttpRequestAux c valid (fun j => withStatus f (outcome j)) ctx req i rem
          (res.map (mapRespStatus f)) er =
        mapRunStatus f (DoHttpRequestAux c valid outcome ctx req i rem res er) := by
  intro rem
  induction rem with
  | zero => intro i res er; simp [DoHttpRequestAux, mapRunStatus]
  | succ n ih =>
    intro i res er
    simp only [DoHttpRequestAux, doHttpRequest_withStatus]
    cases hd : doHttpRequest valid (outcome i) req with
    | ok r => simp [Except.map, mapRunStatus]
    | error e =>
      by_cases hp : pendingForRetry c (ctx i) = true
      · simp only [Except.map, hp, if_true]
        have h := ih (i + 1) none (some e)
        simpa using h
      · simp [Except.map, hp, mapRunStatus]

/-! ### Claims -/

/-- C1 counterexample: with `maxRetryTimes = 2`, `retryInterval = 0`, and a
first attempt that fails, `DoHttpRequest` makes exactly one attempt — the
claimed second attempt never happens, because `pendingForRetry` returns
`false` for a zero interval and the loop breaks. -/
theorem c1_counterexample :
    DoHttpRequest cfgZero2 validAll outcomeFail noCancel reqDemo =
      ⟨none, some (.transportErr "0"), 1⟩ ∧
    (DoHttpRequest cfgZero2 validAll outcomeFail noCancel reqDemo).attempts ≠ 2 :=
  ⟨rfl, by decide⟩

/-- C1 (amended): for every client with `maxRetryTimes > 1` and
`retryInterval = 0`, when the first attempt fails no inter-attempt delay is
ever awaited (`pendingForRetry` returns `false` without entering its
`select`), and no second attempt is made either: the call returns the first
attempt's error after exactly one attempt. -/
theorem c1_zero_interval (c : HTTPRetryConfig) (valid : String → String → Bool)
    (outcome : Nat → DoOutcome) (ctx : Nat → Bool) (req : PushRequest) (e : HttpErr)
    (hInt : c.RetryInterval = 0) (hMax : 1 < c.MaxRetryTimes)
    (hFail : doHttpRequest valid (outcome 0) req = .error e) :
    (∀ b, pendingForRetry c b = false) ∧
    DoHttpRequest c valid outcome ctx req = ⟨none, some e, 1⟩ := by
  have hpend : ∀ b, pendingForRetry c b = false := by
    intro b
    simp [pendingForRetry, hInt]
  refine ⟨hpend, ?_⟩
  obtain ⟨n, hn⟩ : ∃ n, c.MaxRetryTimes.toNat = n + 1 :=
    ⟨c.MaxRetryTimes.toNat - 1, by omega⟩
  unfold DoHttpRequest
  rw [hn]
  simp [DoHttpRequestAux, hFail, hpend]

/-- C1 witness: the amended statement evaluated on a concrete client. -/
theorem c1_zero_interval_witness :
    DoHttpRequest cfgZero2 validAll outcomeFail noCancel reqDemo =
      ⟨none, some (.transportErr "0"), 1⟩ :=
  (c1_zero_interval cfgZero2 validAll outcomeFail noCancel reqDemo
    (.transportErr "0") rfl (by decide) rfl).2

/-- C2 counterexample: a client with `maxRetryTimes = 2` and
`retryInterval = 0` whose every attempt fails makes one attempt, not two, and
returns the first attempt's error, not the second's. -/
theorem c2_counterexample :
    DoHttpRequest cfgZero2 validAll outcomeFail noCancel reqDemo =
      ⟨none, some (.transportErr "0"), 1⟩ ∧
    DoHttpRequest cfgZero2 validAll outcomeFail noCancel reqDemo ≠
      ⟨none, some (.transportErr "1"), 2⟩ :=
  ⟨rfl, by decide⟩

/-- C2 (amended): for every `maxRetryTimes = N ≥ 1`, a client with
`retryInterval > 0` whose every attempt fails, with no cancellation asserted,
makes exactly `N` attempts and returns the `N`-th attempt's error. -/
theorem c2_all_attempts_fail (c : HTTPRetryConfig) (valid : String → String → Bool)
    (outcome : Nat → DoOutcome) (ctx : Nat → Bool) (req : PushRequest)
    (e : Nat → HttpErr) (N : Nat)
    (hN : c.MaxRetryTimes = (N : Int)) (hN1 : 1 ≤ N)
    (hInt : 0 < c.RetryInterval)
    (hCtx : ∀ j, ctx j = false)
    (hFail : ∀ j, doHttpRequest valid (outcome j) req = .error (e j)) :
    DoHttpRequest c valid outcome ctx req = ⟨none, some (e (N - 1)), N⟩ := by
  unfold DoHttpRequest
  have ht : c.MaxRetryTimes.toNat = N := by omega
  rw [ht, aux_all_fail c valid outcome ctx req e hInt hCtx hFail N (by omega) 0 none none]
  simp

/-- C2 witness: three failing attempts under `maxRetryTimes = 3`,
`retryInterval = 5`, returning the third attempt's error. -/
theorem c2_all_attempts_fail_witness :
    DoHttpRequest cfgPos3 validAll outcomeFail noCancel reqDemo =
      ⟨none, some (.transportErr "2"), 3⟩ :=
  c2_all_attempts_fail cfgPos3 validAll outcomeFail noCancel reqDemo
    (fun j => .transportErr (toString j)) 3 rfl (by decide) (by decide)
    (fun _ => rfl) (fun _ => rfl)

/-- C3 counterexample: the variant-A `NewHTTPClient` accepts
`MaxRetryTimes = 0` without any error and adopts the out-of-range
configuration verbatim, so construction does not fail there. -/
theorem c3_counterexample :
    NewHTTPClientA envEmpty (some ⟨none, some ⟨0, 9⟩⟩) =
      .ok ⟨baseTransport, ⟨0, 9⟩⟩ := rfl

/-- C3 (amended): in the stricter variant (`NewHTTPClient` of
`src/push/config/config.go`), a retry configuration with `maxRetryTimes < 1`
or `> 5` is rejected with the dedicated configuration error and no client is
returned, and an in-range configuration is adopted verbatim, never clamped;
the variant at `src/httpclient/httpclient.go` performs no such check (C10). -/
theorem c3_retry_bounds (env : SysEnv) (rc : HTTPRetryConfig) :
    (∀ tc, rc.MaxRetryTimes < 1 ∨ rc.MaxRetryTimes > 5 →
      NewHTTPClientB env (some ⟨tc, some rc⟩) = .error .retryBounds) ∧
    (1 ≤ rc.MaxRetryTimes → rc.MaxRetryTimes ≤ 5 →
      NewHTTPClientB env (some ⟨none, some rc⟩) = .ok ⟨baseTransport, rc⟩) := by
  constructor
  · intro tc hbad
    simp only [NewHTTPClientB]
    rw [if_pos hbad]
  · intro h1 h5
    have hgood : ¬(rc.MaxRetryTimes < 1 ∨ rc.MaxRetryTimes > 5) := by omega
    simp only [NewHTTPClientB]
    rw [if_neg hgood]

/-- C3 witness: `MaxRetryTimes = 0` is rejected and `MaxRetryTimes = 3` is
adopted verbatim by the stricter variant. -/
theorem c3_retry_bounds_witness :
    NewHTTPClientB envEmpty (some ⟨none, some ⟨0, 5⟩⟩) = .error .retryBounds ∧
    NewHTTPClientB envEmpty (some ⟨none, some ⟨3, 7⟩⟩) = .ok ⟨baseTransport, ⟨3, 7⟩⟩ :=
  ⟨(c3_retry_bounds envEmpty ⟨0, 5⟩).1 none (by decide),
   (c3_retry_bounds envEmpty ⟨3, 7⟩).2 (by decide) (by decide)⟩

/-- C4: whenever an attempt's transport execution returns a response envelope
and the body read succeeds, the loop treats that attempt as success and
returns that response whatever its status code (first conjunct, universally
quantified over the status); and the retry decision never inspects the status
code: replacing every envelope's status by an arbitrary function changes
neither the attempt count nor the error, only the delivered status (second
conjunct). -/
theorem c4_status_never_inspected :
    (∀ (c : HTTPRetryConfig) (valid : String → String → Bool)
        (outcome : Nat → DoOutcome) (ctx : Nat → Bool) (req : PushRequest)
        (i rem : Nat) (res : Option PushResponse) (er : Option HttpErr)
        (status : Nat) (header : Header) (body : Bytes),
      valid req.Method req.URL = true →
      outcome i = .gotResponse status header (.ok body) →
      DoHttpRequestAux c valid outcome ctx req i (rem + 1) res er =
        ⟨some ⟨status, header, body⟩, none, i + 1⟩) ∧
    (∀ (f : Nat → Nat) (c : HTTPRetryConfig) (valid : String → String → Bool)
        (outcome : Nat → DoOutcome) (ctx : Nat → Bool) (req : PushRequest),
      DoHttpRequest c valid (fun j => withStatus f (outcome j)) ctx req =
        mapRunStatus f (DoHttpRequest c valid outcome ctx req)) := by
  constructor
  · intro c valid outcome ctx req i rem res er status header body hv ho
    simp only [DoHttpRequestAux, ho,
      doHttpRequest_gotOk valid status header body req hv]
  · intro f c valid outcome ctx req
    unfold DoHttpRequest
    have h := aux_withStatus f c valid outcome ctx req c.MaxRetryTimes.toNat 0 none none
    simpa using h

/-- C4 witness: a 500 response with a readable body ends the loop at once with
that response. -/
theorem c4_witness :
    DoHttpRequestAux cfgPos3 validAll outcome500 noCancel reqDemo 0 3 none none =
      ⟨some ⟨500, [], []⟩, none, 1⟩ :=
  c4_status_never_inspected.1 cfgPos3 validAll outcome500 noCancel reqDemo 0 2
    none none 500 [] [] rfl rfl

/-- C5 counterexample: with `maxRetryTimes = 2` and `retryInterval = 0`,
attempt 2 would be the first to succeed, yet only one attempt is made and an
error is returned instead of attempt 2's response. -/
theorem c5_counterexample :
    DoHttpRequest cfgZero2 validAll outcomeFailThenOk noCancel reqDemo =
      ⟨none, some (.transportErr "boom"), 1⟩ ∧
    DoHttpRequest cfgZero2 validAll outcomeFailThenOk noCancel reqDemo ≠
      ⟨some ⟨200, [], []⟩, none, 2⟩ :=
  ⟨rfl, by decide⟩

/-- C5 (amended): for every `maxRetryTimes = N`, if `retryInterval > 0`,
cancellation is never asserted during the intervening waits, the first `k`
attempts (0-indexed, `k + 1 ≤ N`) fail and attempt `k` succeeds, then exactly
`k + 1` attempts are made and the result is that attempt's response, with no
further attempts after the success. -/
theorem c5_first_success (c : HTTPRetryConfig) (valid : String → String → Bool)
    (outcome : Nat → DoOutcome) (ctx : Nat → Bool) (req : PushRequest)
    (e : Nat → HttpErr) (r : PushResponse) (k : Nat)
    (hInt : 0 < c.RetryInterval)
    (hk : k + 1 ≤ c.MaxRetryTimes.toNat)
    (hFail : ∀ j, j < k → doHttpRequest valid (outcome j) req = .error (e j))
    (hCtx : ∀ j, j < k → ctx j = false)
    (hOk : doHttpRequest valid (outcome k) req = .ok r) :
    DoHttpRequest c valid outcome ctx req = ⟨some r, none, k + 1⟩ := by
  unfold DoHttpRequest
  have h := aux_first_success c valid outcome ctx req e r hInt k 0
    c.MaxRetryTimes.toNat none none hk (by simpa using hFail) (by simpa using hCtx)
    (by simpa using hOk)
  simpa using h

/-- C5 witness: one transport failure, then a success on attempt 1 (0-indexed)
under `maxRetryTimes = 3`: two attempts, attempt 1's response. -/
theorem c5_first_success_witness :
    DoHttpRequest cfgPos3 validAll outcomeFailThenOk noCancel reqDemo =
      ⟨some ⟨200, [], []⟩, none, 2⟩ :=
  c5_first_success cfgPos3 validAll outcomeFailThenOk noCancel reqDemo
    (fun _ => .transportErr "boom") ⟨200, [], []⟩ 1 (by decide) (by decide)
    (fun j hj => by
      have hj0 : j = 0 := by omega
      subst hj0
      rfl)
    (fun _ _ => rfl)
    rfl

/-- C6: with `retryInterval > 0`, if every attempt up to `k` fails, the first
`k` waits are won by the timer, and the cancellation signal wins the race
during wait `k` while retry budget remains, then retries are aborted
immediately: no further attempt is made and `DoHttpRequest` returns the most
recent attempt's error. -/
theorem c6_cancel_during_wait (c : HTTPRetryConfig) (valid : String → String → Bool)
    (outcome : Nat → DoOutcome) (ctx : Nat → Bool) (req : PushRequest)
    (e : Nat → HttpErr) (k : Nat)
    (hInt : 0 < c.RetryInterval)
    (hk : k + 1 < c.MaxRetryTimes.toNat)
    (hFail : ∀ j, j ≤ k → doHttpRequest valid (outcome j) req = .error (e j))
    (hCtx : ∀ j, j < k → ctx j = false)
    (hCancel : ctx k = true) :
    DoHttpRequest c valid outcome ctx req = ⟨none, some (e k), k + 1⟩ := by
  unfold DoHttpRequest
  have h := aux_cancelled c valid outcome ctx req e hInt k 0
    c.MaxRetryTimes.toNat none none (by omega) (by simpa using hFail)
    (by simpa using hCtx) (by simpa using hCancel)
  simpa using h

/-- C6 witness: cancellation winning the race during the wait after attempt 1
(0-indexed) stops a `maxRetryTimes = 3` client at two attempts with attempt
1's error. -/
theorem c6_cancel_during_wait_witness :
    DoHttpRequest cfgPos3 validAll outcomeFail cancelAt1 reqDemo =
      ⟨none, some (.transportErr "1"), 2⟩ :=
  c6_cancel_during_wait cfgPos3 validAll outcomeFail cancelAt1 reqDemo
    (fun j => .transportErr (toString j)) 1 (by decide) (by decide)
    (fun _ _ => rfl)
    (fun j hj => by
      have hj0 : j = 0 := by omega
      subst hj0
      rfl)
    rfl

/-- C7: whenever construction reads a configured trust-anchor file under the
variant's gating policy (variant A: https proxy scheme and non-empty CA path;
variant B: non-empty `TrustedCA`) and zero certificates parse from it,
`NewHTTPClient` fails at construction time with the dedicated
invalid-trust-anchor error and returns no client; an unreadable file likewise
propagates the file error at construction time. -/
theorem c7_trust_anchor (env : SysEnv) :
    (∀ (pu : URL) (path : String) (rc : Option HTTPRetryConfig) (pem : Bytes),
      toLowerStr pu.Scheme = "https" → 0 < path.length →
      env.readFile path = .ok pem → env.pemParses pem = false →
      NewHTTPClientA env (some ⟨some ⟨some pu, path⟩, rc⟩) =
        .error .parseProxyCA) ∧
    (∀ (pu : URL) (path : String) (rc : Option HTTPRetryConfig) (msg : String),
      toLowerStr pu.Scheme = "https" → 0 < path.length →
      env.readFile path = .error msg →
      NewHTTPClientA env (some ⟨some ⟨some pu, path⟩, rc⟩) =
        .error (.fileError msg)) ∧
    (∀ (tcu : Option URL) (ca : String) (pem : Bytes),
      ca ≠ "" → env.readFile ca = .ok pem → env.pemParses pem = false →
      NewHTTPClientB env (some ⟨some ⟨tcu, ca⟩, none⟩) =
        .error .parseTrustedCA) ∧
    (∀ (tcu : Option URL) (ca : String) (msg : String),
      ca ≠ "" → env.readFile ca = .error msg →
      NewHTTPClientB env (some ⟨some ⟨tcu, ca⟩, none⟩) =
        .error (.fileError msg)) := by
  refine ⟨?_, ?_, ?_, ?_⟩
  · intro pu path rc pem hs hlen hread hparse
    simp only [NewHTTPClientA]
    rw [if_pos ⟨hs, hlen⟩, hread]
    simp [appendCertsFromPEM, hparse, Except.map]
  · intro pu path rc msg hs hlen hread
    simp only [NewHTTPClientA]
    rw [if_pos ⟨hs, hlen⟩, hread]
    simp [Except.map]
  · intro tcu ca pem hca hread hparse
    simp only [NewHTTPClientB]
    rw [if_pos hca, hread]
    simp [appendCertsFromPEM, hparse]
  · intro tcu ca msg hca hread
    simp only [NewHTTPClientB]
    rw [if_pos hca, hread]

/-- C7 witness: garbage PEM bytes yield the dedicated parse errors, and an
unreadable file propagates the read error, in both variants. -/
theorem c7_trust_anchor_witness :
    NewHTTPClientA envGarbage (some ⟨some ⟨some urlHttpsProxy, "ca.pem"⟩, none⟩) =
      .error .parseProxyCA ∧
    NewHTTPClientA envEmpty (some ⟨some ⟨some urlHttpsProxy, "ca.pem"⟩, none⟩) =
      .error (.fileError "no filesystem") ∧
    NewHTTPClientB envGarbage (some ⟨some ⟨none, "ca.pem"⟩, none⟩) =
      .error .parseTrustedCA ∧
    NewHTTPClientB envEmpty (some ⟨some ⟨none, "ca.pem"⟩, none⟩) =
      .error (.fileError "no filesystem") :=
  ⟨(c7_trust_anchor envGarbage).1 urlHttpsProxy "ca.pem" none [1, 2, 3]
      rfl (by decide) rfl rfl,
   (c7_trust_anchor envEmpty).2.1 urlHttpsProxy "ca.pem" none "no filesystem"
      rfl (by decide) rfl,
   (c7_trust_anchor envGarbage).2.2.1 none "ca.pem" [1, 2, 3]
      (by decide) rfl rfl,
   (c7_trust_anchor envEmpty).2.2.2 none "ca.pem" "no filesystem"
      (by decide) rfl⟩

/-- C8: `SetHeader` mutates exactly one header key to one value, leaving all
other keys unchanged (first conjunct), and `buildHTTPRequest` applies the
header options in sequence order so the last write for a duplicated key wins:
for the option list `[SetHeader "X" "1", SetHeader "X" "2"]` the built
request's `X` header equals `"2"` (second conjunct). -/
theorem c8_header_options :
    (∀ (key value : String) (r : HttpRequest) (k2 : String),
      headerGet ((SetHeader key value) r).Header k2 =
        if k2 = key then some value else headerGet r.Header k2) ∧
    (∀ (valid : String → String → Bool) (method url : String) (body : Option Bytes),
      valid method url = true →
      ∃ w, buildHTTPRequest valid
          ⟨method, url, body, [SetHeader "X" "1", SetHeader "X" "2"]⟩ = some w ∧
        headerGet w.Header "X" = some "2") := by
  constructor
  · intro key value r k2
    simp only [SetHeader]
    exact headerGet_headerSet r.Header key value k2
  · intro valid method url body hv
    refine ⟨⟨method, url, body, [("X", "2")]⟩, ?_, rfl⟩
    rw [buildHTTPRequest_valid _ _ hv]
    rfl

/-- C8 witness: the duplicated-key option list built on a concrete request. -/
theorem c8_header_options_witness :
    ∃ w, buildHTTPRequest validAll
        ⟨"POST", "https://example.invalid/push", none,
          [SetHeader "X" "1", SetHeader "X" "2"]⟩ = some w ∧
      headerGet w.Header "X" = some "2" :=
  c8_header_options.2 validAll "POST" "https://example.invalid/push" none rfl

/-- C9: the retry loop never mutates the `PushRequest` — in this pure
embedding each iteration hands `doHttpRequest`, and hence `buildHTTPRequest`,
the very same `PushRequest` value it was called with, so a fresh wire request
is built from the unchanged request on every attempt (the body is
re-suppliable on every retry): the instrumented loop logs exactly the
original request once per attempt and computes the same run. -/
theorem c9_request_immutable (c : HTTPRetryConfig) (valid : String → String → Bool)
    (outcome : Nat → DoOutcome) (ctx : Nat → Bool) (req : PushRequest) :
    (DoHttpRequestTrace c valid outcome ctx req).2 =
      List.replicate (DoHttpRequest c valid outcome ctx req).attempts req ∧
    (DoHttpRequestTrace c valid outcome ctx req).1 =
      DoHttpRequest c valid outcome ctx req := by
  unfold DoHttpRequest DoHttpRequestTrace
  obtain ⟨h1, h2⟩ := traceAux_spec c valid outcome ctx req c.MaxRetryTimes.toNat 0 none none
  refine ⟨?_, h1⟩
  rw [h2]
  simp

/-- C10: the variant-A `NewHTTPClient` adopts a supplied `RetryConfig` with no
bounds check, so `MaxRetryTimes ≤ 0` yields a client without error, and that
client's `DoHttpRequest` performs zero attempts and returns a `nil` response
together with a `nil` error. -/
theorem c10_no_bounds_check (env : SysEnv) (rc : HTTPRetryConfig)
    (hrc : rc.MaxRetryTimes ≤ 0) :
    NewHTTPClientA env (some ⟨none, some rc⟩) = .ok ⟨baseTransport, rc⟩ ∧
    (∀ (valid : String → String → Bool) (outcome : Nat → DoOutcome)
        (ctx : Nat → Bool) (req : PushRequest),
      DoHttpRequest rc valid outcome ctx req = ⟨none, none, 0⟩) := by
  refine ⟨rfl, ?_⟩
  intro valid outcome ctx req
  unfold DoHttpRequest
  have h0 : rc.MaxRetryTimes.toNat = 0 := by omega
  rw [h0]
  rfl

/-- C10 witness: `MaxRetryTimes = 0` is adopted and the loop body never runs. -/
theorem c10_no_bounds_check_witness :
    NewHTTPClientA envEmpty (some ⟨none, some ⟨0, 5⟩⟩) =
      .ok ⟨baseTransport, ⟨0, 5⟩⟩ ∧
    DoHttpRequest ⟨0, 5⟩ validAll outcomeFail noCancel reqDemo = ⟨none, none, 0⟩ :=
  ⟨(c10_no_bounds_check envEmpty ⟨0, 5⟩ (by decide)).1,
   (c10_no_bounds_check envEmpty ⟨0, 5⟩ (by decide)).2 validAll outcomeFail
     noCancel reqDemo⟩

end GoHmsPush
